import Mathlib

/-!
Formal model of the `llm-projects` repository: the RAG news assistant
(`rag_pipeline.py`, `loader.py`, `app.py`) and the LangChain agent script
(`ollama_langchain_agent.py`).  The embedding model and the generation model
are third-party components and are modelled as abstract functions; vectors
are lists of integers; the flat FAISS index is modelled by exhaustive
squared-L2 nearest-neighbour search.  Fallible Python operations (indexing,
`result[0]`) return `Option`.
-/

/-- Squared Euclidean (L2) distance between two numeric vectors, the metric
of `faiss.IndexFlatL2`. -/
def sqDist (u v : List Int) : Int :=
  (List.zipWith (fun a b => (a - b) ^ 2) u v).sum

/-- Python list indexing `xs[i]`: non-negative indices count from the front,
negative indices from the back; `none` models an `IndexError`. -/
def pyGet {α : Type} (xs : List α) (i : Int) : Option α :=
  if 0 ≤ i then xs[i.toNat]?
  else if (-i).toNat ≤ xs.length then xs[xs.length - (-i).toNat]? else none

/-- A Python list comprehension whose element expression may raise:
`none` as soon as one element is `none`. -/
def optList {α : Type} : List (Option α) → Option (List α)
  | [] => some []
  | o :: rest => o.bind (fun a => (optList rest).map (fun l => a :: l))

/-- Each stored vector of a flat index paired with its squared distance to
the query vector, in storage order. -/
def distPairs (vecs : List (List Int)) (q : List Int) : List (Int × Nat) :=
  (List.range vecs.length).map (fun i => (sqDist q (vecs.getD i []), i))

/-- Ordering of (distance, index) pairs by distance. -/
def distLe (a b : Int × Nat) : Prop := a.1 ≤ b.1

instance : DecidableRel distLe := fun a b => inferInstanceAs (Decidable (a.1 ≤ b.1))

instance : IsTotal (Int × Nat) distLe := ⟨fun a b => le_total a.1 b.1⟩

instance : IsTrans (Int × Nat) distLe := ⟨fun _ _ _ hab hbc => le_trans hab hbc⟩

/-- Model of `faiss.IndexFlatL2.search` on one query: the indices of the `k`
nearest stored vectors in ascending squared-L2-distance order; when `k`
exceeds the number of stored vectors the remaining slots hold the `-1`
sentinel. -/
def faissSearch (vecs : List (List Int)) (q : List Int) (k : Nat) : List Int :=
  ((List.insertionSort distLe (distPairs vecs q)).take k).map (fun p => (p.2 : Int))
    ++ List.replicate (k - vecs.length) (-1)

/-- The state of a `RAGPipeline` object: the document list, the embedding
model (`embedder.encode` on a single string), the generation model
(prompt and `max_new_tokens` to the list of candidate texts), and the
fields computed in `__init__`: the embedding matrix and the vectors held
by the flat index. -/
structure RAGPipeline where
  docs : List String
  embed : String → List Int
  gen : String → Nat → List String
  embeddings : List (List Int)
  indexVecs : List (List Int)

/-- `RAGPipeline.__init__`: store the docs, embed them all, and add the
embedding matrix to a fresh flat index. -/
def mkRAGPipeline (docs : List String) (embed : String → List Int)
    (gen : String → Nat → List String) : RAGPipeline :=
  let embs := docs.map embed
  ⟨docs, embed, gen, embs, embs⟩

/-- `RAGPipeline.retrieve`: embed the query, search the index for `top_k`
nearest vectors, and index `self.docs` with each returned index. -/
def RAGPipeline.retrieve (p : RAGPipeline) (query : String) (top_k : Nat) :
    Option (List String) :=
  let query_emb := p.embed query
  let I := faissSearch p.indexVecs query_emb top_k
  optList (I.map (pyGet p.docs))

/-- `RAGPipeline.generate`: build the prompt from the space-joined context
and the query, call the generator with `max_new_tokens=64`, and return the
first candidate's text (`result[0]`). -/
def RAGPipeline.generate (p : RAGPipeline) (query : String) (context : List String) :
    Option String :=
  let prompt := "Context: " ++ String.intercalate " " context ++ "\n\nQuestion: "
    ++ query ++ "\nAnswer:"
  (p.gen prompt 64).head?

/-- `RAGPipeline.answer`: retrieve (with the default `top_k` of 3) then
generate. -/
def RAGPipeline.answer (p : RAGPipeline) (query : String) : Option String :=
  (p.retrieve query 3).bind (fun context => p.generate query context)

/-- `RAGPipeline.retrieve` as a state-passing computation over the pipeline
object, reading the state and never writing it back. -/
def retrieveM (query : String) (top_k : Nat) : StateM RAGPipeline (Option (List String)) := do
  let p ← get
  return p.retrieve query top_k

/-- `RAGPipeline.generate` as a state-passing computation over the pipeline
object, reading the state and never writing it back. -/
def generateM (query : String) (context : List String) : StateM RAGPipeline (Option String) := do
  let p ← get
  return p.generate query context

/-- `RAGPipeline.answer` as a state-passing computation over the pipeline
object, reading the state and never writing it back. -/
def answerM (query : String) : StateM RAGPipeline (Option String) := do
  let p ← get
  return p.answer query

/-- Python `str.isspace` restricted to the ASCII whitespace characters
stripped by `str.strip()`. -/
def pyIsSpace (c : Char) : Bool :=
  c = ' ' || c = '\t' || c = '\n' || c = '\r' || c = Char.ofNat 11 || c = Char.ofNat 12

/-- Python `str.strip()`: drop whitespace from both ends. -/
def pyStrip (s : String) : String :=
  String.mk (((s.data.dropWhile pyIsSpace).reverse.dropWhile pyIsSpace).reverse)

/-- `load_news` over the lines of the input file:
`[line.strip() for line in f if line.strip()]`. -/
def load_news (lines : List String) : List String :=
  lines.filterMap (fun line => if pyStrip line = "" then none else some (pyStrip line))

/-- One chat message of the Streamlit session state. -/
structure ChatMsg where
  role : String
  content : String
deriving DecidableEq

/-- One turn of the `app.py` chat handler: on a truthy (non-empty) input,
append the user message, compute the answer, append the assistant message;
`none` models an exception escaping from `pipeline.answer`. -/
def appStep (p : RAGPipeline) (messages : List ChatMsg) (user_input : String) :
    Option (List ChatMsg) :=
  if user_input = "" then some messages
  else
    let messages := messages ++ [⟨"user", user_input⟩]
    match p.answer user_input with
    | some a => some (messages ++ [⟨"assistant", a⟩])
    | none => none

/-- A calendar date as compared by `datetime.date`. -/
structure PyDate where
  year : Nat
  month : Nat
  day : Nat

/-- `datetime.date` comparison: lexicographic on (year, month, day). -/
def dateLt (a b : PyDate) : Prop :=
  a.year < b.year ∨ (a.year = b.year ∧
    (a.month < b.month ∨ (a.month = b.month ∧ a.day < b.day)))

instance : ∀ a b : PyDate, Decidable (dateLt a b) := fun a b => by
  unfold dateLt; infer_instance

/-- The hard-coded threshold date of the agent script. -/
def target_date : PyDate := ⟨2024, 6, 12⟩

/-- The model-selection logic of the agent script:
`if current_date > target_date: llm_model = "llama2" else: llm_model = "llama2:7b"`. -/
def llm_model (current_date : PyDate) : String :=
  if dateLt target_date current_date then "llama2" else "llama2:7b"

/-- The spec's reading of the date condition: the current date is strictly
after 2024-06-12. -/
def dateAfterTarget (d : PyDate) : Prop :=
  2024 < d.year ∨ (d.year = 2024 ∧ (6 < d.month ∨ (d.month = 6 ∧ 12 < d.day)))

instance : ∀ d : PyDate, Decidable (dateAfterTarget d) := fun d => by
  unfold dateAfterTarget; infer_instance

/-- Outcome of `agent(question)`: a result, or a raised exception with its
message. -/
inductive AgentOutcome where
  | ok (result : String)
  | exc (message : String)

/-- The hint printed by the agent script's exception handler. -/
def hintLine : String := "Make sure Ollama is running and the model is available"

/-- The module-level try/except of the agent script: on success print the
result; on any exception print its message and then the hint.  The second
component records that the path terminates normally (the handler re-raises
nothing). -/
def agentScriptRun (outcome : AgentOutcome) : List String × Bool :=
  match outcome with
  | .ok r => (["Result: " ++ r], true)
  | .exc e => (["Error occurred: " ++ e, hintLine], true)

/-- A concrete pipeline used to instantiate theorems: one document, length
as the embedding, a constant generator. -/
def samplePipeline : RAGPipeline :=
  mkRAGPipeline ["doc"] (fun s => [(s.length : Int)]) (fun _ _ => ["ans"])

/-- A pipeline equal to `samplePipeline` in all retrieval-relevant state but
with a different generation model. -/
def samplePipeline2 : RAGPipeline :=
  mkRAGPipeline ["doc"] (fun s => [(s.length : Int)]) (fun _ _ => ["other"])

/-- Proof-side abbreviation: the documents whose embeddings are the `k`
nearest to the query embedding, in ascending-distance order (the value
`retrieve` computes on the non-sentinel indices). -/
def topDocs (docs : List String) (embed : String → List Int) (q : String) (k : Nat) :
    List String :=
  ((List.insertionSort distLe (distPairs (docs.map embed) (embed q))).take k).map
    (fun pr => docs.getD pr.2 "")

/-! ### Helper lemmas -/

theorem optList_map_some {α β : Type} (l : List α) (f : α → Option β) (g : α → β)
    (h : ∀ x ∈ l, f x = some (g x)) :
    optList (l.map f) = some (l.map g) := by
  induction l with
  | nil => rfl
  | cons a l ih =>
    simp only [List.map_cons, optList]
    rw [h a (by simp), ih (fun x hx => h x (by simp [hx]))]
    rfl

theorem optList_append {α : Type} (l1 l2 : List (Option α)) :
    optList (l1 ++ l2) =
      (optList l1).bind (fun a => (optList l2).map (fun b => a ++ b)) := by
  induction l1 with
  | nil =>
    simp only [List.nil_append, optList, Option.some_bind]
    cases optList l2 <;> simp
  | cons o l ih =>
    cases o with
    | none => simp [optList]
    | some a =>
      simp only [List.cons_append, optList, ih]
      cases hl : optList l <;> cases hl2 : optList l2 <;> simp [hl, hl2, ih]

theorem optList_replicate {α : Type} (m : Nat) (a : α) :
    optList (List.replicate m (some a)) = some (List.replicate m a) := by
  induction m with
  | zero => rfl
  | succ m ih => simp [List.replicate_succ, optList, ih]

theorem mem_distPairs {vecs : List (List Int)} {q : List Int} {pr : Int × Nat}
    (h : pr ∈ distPairs vecs q) :
    pr.2 < vecs.length ∧ pr.1 = sqDist q (vecs.getD pr.2 []) := by
  unfold distPairs at h
  simp only [List.mem_map, List.mem_range] at h
  obtain ⟨i, hi, rfl⟩ := h
  exact ⟨hi, rfl⟩

theorem length_distPairs (vecs : List (List Int)) (q : List Int) :
    (distPairs vecs q).length = vecs.length := by
  simp [distPairs]

theorem pyGet_natCast {α : Type} (xs : List α) (d : α) (i : Nat) (h : i < xs.length) :
    pyGet xs (i : Int) = some (xs.getD i d) := by
  unfold pyGet
  rw [if_pos (Int.natCast_nonneg i), Int.toNat_natCast,
    List.getElem?_eq_getElem h, List.getD_eq_getElem?_getD, List.getElem?_eq_getElem h]
  rfl

theorem pyGet_neg_one {α : Type} (xs : List α) (h : 0 < xs.length) :
    pyGet xs (-1) = xs.getLast? := by
  unfold pyGet
  rw [if_neg (by norm_num)]
  have h1 : ((-(-1 : Int)).toNat) = 1 := by norm_num
  rw [h1, if_pos (by omega : 1 ≤ xs.length), List.getLast?_eq_getElem? xs]


theorem topDocs_mem_facts (docs : List String) (embed : String → List Int)
    (q : String) (k : Nat) :
    ∀ pr ∈ (List.insertionSort distLe (distPairs (docs.map embed) (embed q))).take k,
      pr.2 < docs.length ∧ pr.1 = sqDist (embed q) (embed (docs.getD pr.2 "")) := by
  intro pr hpr
  have h1 : pr ∈ distPairs (docs.map embed) (embed q) :=
    (List.perm_insertionSort distLe _).mem_iff.mp (List.mem_of_mem_take hpr)
  obtain ⟨hlt, hdist⟩ := mem_distPairs h1
  rw [List.length_map] at hlt
  refine ⟨hlt, ?_⟩
  rw [hdist]
  congr 1
  rw [List.getD_eq_getElem?_getD, List.getElem?_map, List.getElem?_eq_getElem hlt,
    List.getD_eq_getElem?_getD, List.getElem?_eq_getElem hlt]
  rfl

theorem optList_top (docs : List String) (embed : String → List Int)
    (q : String) (k : Nat) :
    optList (((( List.insertionSort distLe (distPairs (docs.map embed) (embed q))).take k).map
        (fun pr => ((pr.2 : Int)))).map (pyGet docs)) =
      some (topDocs docs embed q k) ∧
    (topDocs docs embed q k).length = min k docs.length ∧
    (∀ d ∈ topDocs docs embed q k, d ∈ docs) ∧
    (topDocs docs embed q k).Pairwise
      (fun d1 d2 => sqDist (embed q) (embed d1) ≤ sqDist (embed q) (embed d2)) := by
  have hmem := topDocs_mem_facts docs embed q k
  refine ⟨?_, ?_, ?_, ?_⟩
  · rw [List.map_map]
    exact optList_map_some _ _ _ (fun pr hpr => pyGet_natCast docs "" pr.2 (hmem pr hpr).1)
  · rw [topDocs, List.length_map, List.length_take, List.length_insertionSort,
      length_distPairs, List.length_map]
  · intro d hd
    rw [topDocs, List.mem_map] at hd
    obtain ⟨pr, hpr, rfl⟩ := hd
    have hlt := (hmem pr hpr).1
    rw [List.getD_eq_getElem?_getD, List.getElem?_eq_getElem hlt]
    exact List.getElem_mem hlt
  · have hs : (List.insertionSort distLe (distPairs (docs.map embed) (embed q))).Sorted distLe :=
      List.sorted_insertionSort distLe _
    have ht := hs.sublist (List.take_sublist k _)
    have ht' := List.Pairwise.and_mem.mp ht
    rw [topDocs]
    refine List.Pairwise.map _ ?_ ht'
    rintro a b ⟨ha, hb, hab⟩
    rw [← (hmem a ha).2, ← (hmem b hb).2]
    exact hab

theorem appStep_eq (p : RAGPipeline) (messages : List ChatMsg) (u a : String)
    (hu : u ≠ "") (ha : p.answer u = some a) :
    appStep p messages u = some (messages ++ [⟨"user", u⟩, ⟨"assistant", a⟩]) := by
  unfold appStep
  rw [if_neg hu]
  simp only [ha]
  rw [List.append_assoc]
  rfl

theorem appStep_none (p : RAGPipeline) (messages : List ChatMsg) (u : String)
    (hu : u ≠ "") (ha : p.answer u = none) :
    appStep p messages u = none := by
  unfold appStep
  rw [if_neg hu]
  simp [ha]

/-! ### Claim theorems -/

/-- C1: for a corpus of `n` documents and `k ≤ n`, `retrieve` returns exactly
`k` documents, each a member of the corpus, in non-decreasing order of squared
Euclidean distance between the query's embedding and the documents'
embeddings. -/
theorem retrieve_topk (docs : List String) (embed : String → List Int)
    (gen : String → Nat → List String) (q : String) (k : Nat) (hk : k ≤ docs.length) :
    ∃ l, (mkRAGPipeline docs embed gen).retrieve q k = some l ∧
      l.length = k ∧ (∀ d ∈ l, d ∈ docs) ∧
      l.Pairwise (fun d1 d2 => sqDist (embed q) (embed d1) ≤ sqDist (embed q) (embed d2)) := by
  obtain ⟨h1, h2, h3, h4⟩ := optList_top docs embed q k
  refine ⟨topDocs docs embed q k, ?_, ?_, h3, h4⟩
  · simp only [RAGPipeline.retrieve, mkRAGPipeline, faissSearch, List.length_map]
    rw [Nat.sub_eq_zero_of_le hk, List.replicate_zero, List.append_nil]
    exact h1
  · rw [h2]
    omega

/-- Witness for C1 at a concrete corpus, embedding function and `k`. -/
theorem retrieve_topk_witness :
    ∃ l, (mkRAGPipeline ["aa", "b"] (fun s => [(s.length : Int)]) (fun _ _ => [""])).retrieve
        "q" 2 = some l ∧
      l.length = 2 ∧ (∀ d ∈ l, d ∈ ["aa", "b"]) ∧
      l.Pairwise (fun d1 d2 =>
        sqDist [("q".length : Int)] [(d1.length : Int)] ≤
          sqDist [("q".length : Int)] [(d2.length : Int)]) :=
  retrieve_topk ["aa", "b"] (fun s => [(s.length : Int)]) (fun _ _ => [""]) "q" 2 (by decide)

/-- C2: `generate` builds exactly the prompt
`"Context: " ++ space-joined docs ++ "\n\nQuestion: " ++ query ++ "\nAnswer:"`,
calls the generator capped at 64 new tokens, and returns the first candidate's
text verbatim. -/
theorem generate_prompt_spec (p : RAGPipeline) (query : String) (context : List String)
    (t : String) (rest : List String)
    (h : p.gen ("Context: " ++ String.intercalate " " context ++ "\n\nQuestion: "
        ++ query ++ "\nAnswer:") 64 = t :: rest) :
    p.generate query context = some t := by
  simp only [RAGPipeline.generate]
  rw [h]
  rfl

/-- Witness for C2 at a concrete pipeline, query and context. -/
theorem generate_prompt_spec_witness :
    samplePipeline.generate "q" ["c1", "c2"] = some "ans" :=
  generate_prompt_spec samplePipeline "q" ["c1", "c2"] "ans" [] (by decide)

/-- C3: `answer(query)` equals `generate(query, retrieve(query))` with the
default result count 3, and the chat history passed around by the UI has no
influence: the messages a turn appends are the same whatever the prior
history. -/
theorem answer_stateless (p : RAGPipeline) (q : String) (m1 m2 : List ChatMsg)
    (hq : q ≠ "") :
    p.answer q = (p.retrieve q 3).bind (fun context => p.generate q context) ∧
    (appStep p m1 q).map (fun l => l.drop m1.length) =
      (appStep p m2 q).map (fun l => l.drop m2.length) := by
  refine ⟨rfl, ?_⟩
  cases ha : p.answer q with
  | none =>
    rw [appStep_none p m1 q hq ha, appStep_none p m2 q hq ha]
    rfl
  | some a =>
    rw [appStep_eq p m1 q a hq ha, appStep_eq p m2 q a hq ha]
    simp [List.drop_left]

/-- Witness for C3 at a concrete pipeline, query and two distinct histories. -/
theorem answer_stateless_witness :
    samplePipeline.answer "hi" =
      (samplePipeline.retrieve "hi" 3).bind
        (fun context => samplePipeline.generate "hi" context) ∧
    (appStep samplePipeline [] "hi").map
        (fun l => l.drop (List.length ([] : List ChatMsg))) =
      (appStep samplePipeline [⟨"user", "x"⟩] "hi").map
        (fun l => l.drop (List.length [(⟨"user", "x"⟩ : ChatMsg)])) :=
  answer_stateless samplePipeline "hi" [] [⟨"user", "x"⟩] (by decide)

/-- C4: the agent's model selection is a pure function of the current date:
strictly after 2024-06-12 it is `"llama2"`, on or before it is
`"llama2:7b"`. -/
theorem llm_model_spec (d : PyDate) :
    (dateAfterTarget d → llm_model d = "llama2") ∧
    (¬ dateAfterTarget d → llm_model d = "llama2:7b") := by
  have key : dateLt target_date d ↔ dateAfterTarget d := by
    show (2024 < d.year ∨ (2024 = d.year ∧ (6 < d.month ∨ (6 = d.month ∧ 12 < d.day)))) ↔ _
    unfold dateAfterTarget
    omega
  constructor
  · intro h
    unfold llm_model
    rw [if_pos (key.mpr h)]
  · intro h
    unfold llm_model
    rw [if_neg (fun hc => h (key.mp hc))]

/-- Witness for C4 at a date after and a date on the threshold. -/
theorem llm_model_spec_witness :
    llm_model ⟨2025, 1, 1⟩ = "llama2" ∧ llm_model ⟨2024, 6, 12⟩ = "llama2:7b" :=
  ⟨(llm_model_spec ⟨2025, 1, 1⟩).1 (by decide),
   (llm_model_spec ⟨2024, 6, 12⟩).2 (by decide)⟩

/-- C5: every exception from the agent run is caught by the single top-level
handler, its message is printed followed by the hint, and every outcome
terminates normally. -/
theorem agent_catchall_spec (e : String) :
    agentScriptRun (AgentOutcome.exc e) = (["Error occurred: " ++ e, hintLine], true) ∧
    ∀ o : AgentOutcome, (agentScriptRun o).2 = true := by
  refine ⟨rfl, fun o => ?_⟩
  cases o <;> rfl

/-- C6: after construction the embedding matrix has one row per document
(row `i` the embedding of document `i`), the index holds exactly the
embedding matrix, and `retrieve`, `generate` and `answer` leave the pipeline
state unchanged. -/
theorem pipeline_init_invariants (docs : List String) (embed : String → List Int)
    (gen : String → Nat → List String) (query : String) (k : Nat) (context : List String) :
    (mkRAGPipeline docs embed gen).embeddings.length = docs.length ∧
    (∀ i : Nat, (mkRAGPipeline docs embed gen).embeddings[i]? = (docs[i]?).map embed) ∧
    (mkRAGPipeline docs embed gen).indexVecs = (mkRAGPipeline docs embed gen).embeddings ∧
    ((retrieveM query k).run (mkRAGPipeline docs embed gen)).2 = mkRAGPipeline docs embed gen ∧
    ((generateM query context).run (mkRAGPipeline docs embed gen)).2 =
      mkRAGPipeline docs embed gen ∧
    ((answerM query).run (mkRAGPipeline docs embed gen)).2 = mkRAGPipeline docs embed gen := by
  refine ⟨?_, ?_, rfl, rfl, rfl, rfl⟩
  · simp [mkRAGPipeline]
  · intro i
    simp [mkRAGPipeline, List.getElem?_map]

/-- C7: retrieval is deterministic: two pipelines agreeing on corpus,
embedding model and index contents return the same documents for the same
query and `k`. -/
theorem retrieve_deterministic (p1 p2 : RAGPipeline) (query : String) (k : Nat)
    (hdocs : p1.docs = p2.docs) (hembed : p1.embed = p2.embed)
    (hidx : p1.indexVecs = p2.indexVecs) :
    p1.retrieve query k = p2.retrieve query k := by
  simp only [RAGPipeline.retrieve, hdocs, hembed, hidx]

/-- Witness for C7: two pipelines differing only in the generation model
retrieve identically. -/
theorem retrieve_deterministic_witness :
    samplePipeline.retrieve "q" 1 = samplePipeline2.retrieve "q" 1 :=
  retrieve_deterministic samplePipeline samplePipeline2 "q" 1 rfl rfl rfl

/-- C8: `load_news` returns exactly the stripped non-empty lines, in order;
empty or whitespace-only lines contribute nothing, and no returned document
is empty. -/
theorem load_news_spec (lines : List String) :
    load_news lines = (lines.filter (fun l => pyStrip l != "")).map pyStrip ∧
    ∀ d ∈ load_news lines, d ≠ "" := by
  constructor
  · induction lines with
    | nil => rfl
    | cons a l ih =>
      by_cases h : pyStrip a = "" <;>
        simp [load_news, List.filterMap_cons, List.filter_cons, h] <;>
        simpa [load_news] using ih
  · intro d hd
    simp only [load_news, List.mem_filterMap] at hd
    obtain ⟨a, _, ha⟩ := hd
    by_cases h : pyStrip a = ""
    · rw [if_pos h] at ha
      exact absurd ha (by simp)
    · rw [if_neg h] at ha
      injection ha with ha
      subst ha
      exact h

/-- C9: a chat turn on a non-empty input appends exactly the user message and
then the assistant message, leaving the stored prefix untouched. -/
theorem chat_append_only (p : RAGPipeline) (messages : List ChatMsg) (u a : String)
    (hu : u ≠ "") (ha : p.answer u = some a) :
    appStep p messages u = some (messages ++ [⟨"user", u⟩, ⟨"assistant", a⟩]) ∧
    ∀ l, appStep p messages u = some l → l.take messages.length = messages := by
  have he := appStep_eq p messages u a hu ha
  refine ⟨he, ?_⟩
  intro l hl
  rw [he] at hl
  injection hl with hl
  subst hl
  rw [List.take_left]

/-- Witness for C9 at a concrete pipeline and history. -/
theorem chat_append_only_witness :
    appStep samplePipeline [] "hi" = some ([] ++ [⟨"user", "hi"⟩, ⟨"assistant", "ans"⟩]) ∧
    ∀ l, appStep samplePipeline [] "hi" = some l →
      l.take (List.length ([] : List ChatMsg)) = [] :=
  chat_append_only samplePipeline [] "hi" "ans" (by decide) (by decide)

/-- C10: `retrieve` indexes `docs` with every index the search returns,
unguarded: any `i` with `-n ≤ i < n` resolves to a document, the `-1`
sentinel resolves to the last document, and for `k > n` the call silently
returns `k` documents whose tail slots all hold the last corpus document. -/
theorem retrieve_unguarded_indexing (docs : List String) (embed : String → List Int)
    (gen : String → Nat → List String) (q : String) (k : Nat)
    (hn : 0 < docs.length) (hk : docs.length < k) :
    (∀ i : Int, -(docs.length : Int) ≤ i → i < (docs.length : Int) →
      ∃ d, pyGet docs i = some d ∧ d ∈ docs) ∧
    pyGet docs (-1) = docs.getLast? ∧
    ∃ l d, (mkRAGPipeline docs embed gen).retrieve q k = some l ∧ l.length = k ∧
      docs.getLast? = some d ∧ l.drop docs.length = List.replicate (k - docs.length) d := by
  obtain ⟨h1, h2, h3, h4⟩ := optList_top docs embed q k
  refine ⟨?_, pyGet_neg_one docs hn, ?_⟩
  · intro i hge hlt
    unfold pyGet
    by_cases h0 : 0 ≤ i
    · rw [if_pos h0]
      have hi : i.toNat < docs.length := by omega
      exact ⟨docs[i.toNat], List.getElem?_eq_getElem hi, List.getElem_mem hi⟩
    · rw [if_neg h0]
      have hle : (-i).toNat ≤ docs.length := by omega
      rw [if_pos hle]
      have hi : docs.length - (-i).toNat < docs.length := by omega
      exact ⟨docs[docs.length - (-i).toNat], List.getElem?_eq_getElem hi, List.getElem_mem hi⟩
  · obtain ⟨d, hd⟩ : ∃ d, docs.getLast? = some d := by
      cases hx : docs.getLast? with
      | none => exact absurd (List.getLast?_eq_none_iff.mp hx) (List.ne_nil_of_length_pos hn)
      | some d => exact ⟨d, rfl⟩
    have htop : (topDocs docs embed q k).length = docs.length := by
      rw [h2]; omega
    refine ⟨topDocs docs embed q k ++ List.replicate (k - docs.length) d, d, ?_, ?_, hd, ?_⟩
    · simp only [RAGPipeline.retrieve, mkRAGPipeline, faissSearch, List.length_map]
      rw [List.map_append, optList_append, h1, List.map_replicate,
        pyGet_neg_one docs hn, hd, optList_replicate]
      rfl
    · rw [List.length_append, List.length_replicate, htop]
      omega
    · rw [List.drop_left' htop]

/-- Witness for C10 at a concrete two-document corpus and `k = 3`. -/
theorem retrieve_unguarded_indexing_witness :
    (∀ i : Int, -(((["a", "bb"] : List String)).length : Int) ≤ i →
      i < (((["a", "bb"] : List String)).length : Int) →
      ∃ d, pyGet ["a", "bb"] i = some d ∧ d ∈ ["a", "bb"]) ∧
    pyGet ["a", "bb"] (-1) = (["a", "bb"] : List String).getLast? ∧
    ∃ l d, (mkRAGPipeline ["a", "bb"] (fun s => [(s.length : Int)])
        (fun _ _ => [""])).retrieve "q" 3 = some l ∧ l.length = 3 ∧
      (["a", "bb"] : List String).getLast? = some d ∧
      l.drop (["a", "bb"] : List String).length =
        List.replicate (3 - (["a", "bb"] : List String).length) d :=
  retrieve_unguarded_indexing ["a", "bb"] (fun s => [(s.length : Int)]) (fun _ _ => [""])
    "q" 3 (by decide) (by decide)
